import Mathlib

/-!
Shallow embedding of the live streaming / event-routing layer of the SDLC
dashboard (`flask_app/app.py`): the thread-aware stdout interceptor
(`OutputInterceptor`), the per-run text buffering handler
(`PipelineHandler`), the CrewAI task callback (`make_task_callback`), the
pipeline worker's cleanup block (`run_pipeline_streaming`), and the SSE
streaming endpoint (`stream`).

Conventions of the embedding:
- Python strings are `List Char`; `time.time()` instants are `Nat`
  milliseconds (the source compares `now - last_push > 0.25` seconds,
  embedded as `250 < now - last_push` with truncating `Nat` subtraction,
  which agrees with the float comparison whenever the clock does not go
  backwards, and is likewise false when it does).
- The per-run `queue.Queue` is embedded as the list of events pushed onto
  it so far, in FIFO push order.
- Mutation is explicit state passing: each method returns the updated
  state.
-/

namespace SDLC

/-- Events pushed onto a run's event queue (`app.py`).  Each constructor
carries the kind-specific payload fields the source attaches. -/
inductive Event where
  | pipeline_start
  | status (message : String)
  | phase_start (phase_index : Nat) (phase_id phase agent model icon color : String)
  | agent_output (phase_index : Nat) (text : List Char)
  | phase_complete (phase_index : Nat) (phase_id phase agent : String)
      (content : List Char) (content_length : Nat) (file : String)
  | pipeline_complete
  | error (message : String)
  | done
  | heartbeat
  deriving DecidableEq

/-- Whether an event is the terminal `done` event (`event.get("event") == "done"`). -/
def Event.isDone : Event → Bool
  | .done => true
  | _ => false

/-- Whether an event is an `error` event. -/
def Event.isError : Event → Bool
  | .error _ => true
  | _ => false

/-- Whether an event is an `agent_output` event. -/
def Event.isAgentOutput : Event → Bool
  | .agent_output _ _ => true
  | _ => false

/-- After `ESC [`, consume `[0-9;]*` and then a terminating `m`; returns the
remaining characters on a full match of the regex `\x1b\[[0-9;]*m`
(`PipelineHandler._clean`, line 150), `none` when the match fails. -/
def ansiTail : List Char → Option (List Char)
  | [] => none
  | c :: rest =>
    if c = 'm' then some rest
    else if c.isDigit || c = ';' then ansiTail rest
    else none

theorem ansiTail_length : ∀ {l r : List Char}, ansiTail l = some r → r.length < l.length := by
  intro l
  induction l with
  | nil => intro r h; simp [ansiTail] at h
  | cons c rest ih =>
    intro r h
    simp only [ansiTail] at h
    split at h
    · cases h; simp
    · split at h
      · have := ih h
        simp
        omega
      · cases h

/-- Worker for `stripAnsi`, structurally recursive on a fuel counter so
that the kernel can evaluate it.  Every recursive call strictly shortens
the character list (for the first branch by `ansiTail_length`), so fuel
equal to the input length never runs out and the `0` base case is never
reached on a non-empty list. -/
def stripAnsiAux : Nat → List Char → List Char
  | 0, l => l
  | _ + 1, [] => []
  | gas + 1, '\x1b' :: '[' :: rest2 =>
    match ansiTail rest2 with
    | some rest3 => stripAnsiAux gas rest3
    | none => '\x1b' :: stripAnsiAux gas ('[' :: rest2)
  | gas + 1, c :: rest => c :: stripAnsiAux gas rest

/-- Embeds `re.sub(r"\x1b\[[0-9;]*m", "", text)`: delete every non-overlapping
match of the ANSI colour-code regex, scanning left to right
(`PipelineHandler._clean`, line 150). -/
def stripAnsi (l : List Char) : List Char :=
  stripAnsiAux l.length l

/-- The fixed box-drawing glyph substitution table of
`PipelineHandler._clean` (lines 151-152). -/
def boxSubst : List (Char × Char) :=
  [('╭', '+'), ('╰', '+'), ('╮', '+'), ('╯', '+'), ('─', '-'), ('│', '|')]

/-- Embeds `text.replace(old, new)` for single-character `old`/`new`. -/
def replaceChar (old new : Char) (l : List Char) : List Char :=
  l.map fun c => if c = old then new else c

namespace PipelineHandler

/-- Source `PipelineHandler._clean` (lines 148-154): strip the ANSI regex, then
apply the glyph substitutions in table order. -/
def clean (text : List Char) : List Char :=
  boxSubst.foldl (fun t p => replaceChar p.1 p.2 t) (stripAnsi text)

/-- Truthiness of `clean.strip()` (line 124): the stripped string is
non-empty iff some character is not whitespace. -/
def stripNonEmpty (l : List Char) : Bool :=
  l.any fun c => !c.isWhitespace

/-- Embeds `combined[-4000:]` and `content[:8000]`-style slicing: the last `n`
characters of `l` (all of `l` when it is shorter). -/
def lastChars (n : Nat) (l : List Char) : List Char :=
  l.drop (l.length - n)

end PipelineHandler

/-- State of one `PipelineHandler` (lines 105-158).  `events` embeds the
run's shared event queue (`self.event_queue`), in push order.
`flushed_log` is a history variable added for verification only: it
records, at each flush, the pre-truncation `combined` string that line
145 truncates to its last 4000 characters; no source behaviour reads it. -/
structure PipelineHandler where
  events : List Event
  current_phase_index : Nat
  chunk_buffer : List (List Char)
  last_push : Nat
  flushed_log : List (List Char)
  deriving DecidableEq

namespace PipelineHandler

/-- Source `PipelineHandler.__init__` (lines 112-117) at clock instant `now`. -/
def init (now : Nat) : PipelineHandler :=
  { events := [], current_phase_index := 0, chunk_buffer := [],
    last_push := now, flushed_log := [] }

/-- Source `PipelineHandler._flush` (lines 136-146): no-op on an empty buffer;
otherwise join the fragments, clear the buffer, reset `last_push`, and
push one `agent_output` event with the current phase index and the last
4000 characters of the combined text. -/
def flush (s : PipelineHandler) (now : Nat) : PipelineHandler :=
  if s.chunk_buffer = [] then s
  else
    { s with
      chunk_buffer := [],
      last_push := now,
      events := s.events ++
        [Event.agent_output s.current_phase_index (lastChars 4000 s.chunk_buffer.flatten)],
      flushed_log := s.flushed_log ++ [s.chunk_buffer.flatten] }

/-- Source `PipelineHandler.process` (lines 119-128): ignore empty text; clean;
append iff non-empty after stripping; flush when more than 250 ms elapsed
since the last push or the buffer holds at least 4 fragments. -/
def process (s : PipelineHandler) (text : List Char) (now : Nat) : PipelineHandler :=
  if text = [] then s
  else
    let cl := clean text
    if stripNonEmpty cl then
      let s1 : PipelineHandler := { s with chunk_buffer := s.chunk_buffer ++ [cl] }
      if 250 < now - s1.last_push || 4 ≤ s1.chunk_buffer.length then s1.flush now
      else s1
    else s

/-- Source `PipelineHandler.set_phase` (lines 130-134): flush, then update the
current phase index. -/
def set_phase (s : PipelineHandler) (index : Nat) (now : Nat) : PipelineHandler :=
  { s.flush now with current_phase_index := index }

/-- Source `PipelineHandler.flush_remaining` (lines 156-158). -/
def flush_remaining (s : PipelineHandler) (now : Nat) : PipelineHandler :=
  s.flush now

end PipelineHandler

/-- Lookup in the interceptor's `self._handlers` dict
(`self._handlers.get(tid)`), embedded as an association list keyed by
thread identifier. -/
def lookupH : List (Nat × PipelineHandler) → Nat → Option PipelineHandler
  | [], _ => none
  | (k, v) :: rest, tid => if k = tid then some v else lookupH rest tid

/-- Dict assignment `self._handlers[thread_id] = handler`: replace the
binding for the key if present, otherwise add it. -/
def insertH : List (Nat × PipelineHandler) → Nat → PipelineHandler → List (Nat × PipelineHandler)
  | [], tid, h => [(tid, h)]
  | (k, v) :: rest, tid, h =>
    if k = tid then (tid, h) :: rest else (k, v) :: insertH rest tid h

/-- Embeds `self._handlers.pop(thread_id, None)`: the removed handler (if any)
together with the remaining table. -/
def popH : List (Nat × PipelineHandler) → Nat → Option PipelineHandler × List (Nat × PipelineHandler)
  | [], _ => (none, [])
  | (k, v) :: rest, tid =>
    if k = tid then (some v, rest)
    else
      let r := popH rest tid
      (r.1, (k, v) :: r.2)

/-- State of one `OutputInterceptor` (lines 32-102).  `console` is the
text accepted so far by the wrapped original stream (`self._original`);
the handler table embeds `self._handlers`. -/
structure OutputInterceptor where
  handlers : List (Nat × PipelineHandler)
  console : List Char
  deriving DecidableEq

namespace OutputInterceptor

/-- Source `OutputInterceptor.write` (lines 65-84), called from thread `tid` at
instant `now`.  The `try: self._original.write(text); self._original.flush()
except Exception: pass` forwarding is embedded by two failure flags:
`writeFails` (the original stream's `write` raises, so it accepts nothing)
and `flushFails` (its `flush` raises); either exception is swallowed, so
the function is total and its result never depends on `flushFails`.
Returns the updated interceptor and the value `write` returns. -/
def write (r : OutputInterceptor) (writeFails flushFails : Bool) (tid : Nat)
    (text : List Char) (now : Nat) : OutputInterceptor × Nat :=
  let _ := flushFails
  let r1 : OutputInterceptor :=
    if writeFails then r else { r with console := r.console ++ text }
  if text = [] then (r1, 0)
  else
    match lookupH r1.handlers tid with
    | some h =>
      ({ r1 with handlers := insertH r1.handlers tid (h.process text now) }, text.length)
    | none => (r1, text.length)

/-- Source `OutputInterceptor.register` (lines 94-96). -/
def register (r : OutputInterceptor) (thread_id : Nat) (handler : PipelineHandler) :
    OutputInterceptor :=
  { r with handlers := insertH r.handlers thread_id handler }

/-- Source `OutputInterceptor.unregister` (lines 98-102): pop the binding and, if
one existed, run the handler's `flush_remaining`.  The flushed handler is
returned so the enclosing model can account for the events it pushed. -/
def unregister (r : OutputInterceptor) (thread_id : Nat) (now : Nat) :
    OutputInterceptor × Option PipelineHandler :=
  match popH r.handlers thread_id with
  | (some h, rest) => ({ r with handlers := rest }, some (h.flush_remaining now))
  | (none, rest) => ({ r with handlers := rest }, none)

end OutputInterceptor

/-! ### Lock-scope traces of the Output Router operations

For the concurrency contract (which statements run while `self._lock` is
held) each interceptor method is abstracted to its sequence of atomic
actions, read off the source line by line. -/

/-- One atomic step of an interceptor method, as far as the lock contract
is concerned. -/
inductive LockAction where
  | acquire      -- enter `with self._lock:`
  | release      -- leave `with self._lock:`
  | tableOp      -- read or mutate `self._handlers`
  | downstream   -- call `handler.process(...)` or `handler.flush_remaining()`
  deriving DecidableEq

/-- Action trace of `OutputInterceptor.write` (lines 77-82): the lock is
taken around the `self._handlers.get(tid)` lookup only, and
`handler.process(text)` runs after the `with` block ends.  `hasHandler`
says whether the calling thread had a registered handler. -/
def writeTrace (hasHandler : Bool) : List LockAction :=
  [.acquire, .tableOp, .release] ++ (if hasHandler then [.downstream] else [])

/-- Action trace of `OutputInterceptor.register` (lines 94-96). -/
def registerTrace : List LockAction :=
  [.acquire, .tableOp, .release]

/-- Action trace of `OutputInterceptor.unregister` (lines 98-102): the
`pop` and, when a handler existed, the `handler.flush_remaining()` call
both sit inside the `with self._lock:` block. -/
def unregisterTrace (hasHandler : Bool) : List LockAction :=
  [.acquire, .tableOp] ++ (if hasHandler then [.downstream] else []) ++ [.release]

/-- Number of `downstream` actions of a trace executed while the lock is
held, tracking the current hold depth `d`. -/
def downstreamHeldFrom : Nat → List LockAction → Nat
  | _, [] => 0
  | d, .acquire :: r => downstreamHeldFrom (d + 1) r
  | d, .release :: r => downstreamHeldFrom (d - 1) r
  | d, .downstream :: r => (if 0 < d then 1 else 0) + downstreamHeldFrom d r
  | d, .tableOp :: r => downstreamHeldFrom d r

/-- Downstream calls made with the lock held, starting unlocked. -/
def downstreamHeld (t : List LockAction) : Nat :=
  downstreamHeldFrom 0 t

/-! ### Task callback (`make_task_callback`, lines 233-284) -/

/-- One entry of the `phases` list built in `run_pipeline_streaming`
(lines 302-318 over `PHASE_DEFS`): the fields the callback reads. -/
structure PhaseDef where
  phase_id : String
  phase : String
  agent : String
  model : String
  icon : String
  color : String
  file : String
  extract : Bool

/-- The closure state of `make_task_callback`: the `task_counter[0]`
cell and the `handler` (whose `events` field embeds the shared
`event_queue` both the callback and the handler push to). -/
structure TaskCallbackState where
  task_counter : Nat
  handler : PipelineHandler

/-- The argument CrewAI passes to the callback: the fields
`_on_task_done` reads (`task_output.raw`; `task_output.agent` is read but
unused afterwards). -/
structure TaskOutput where
  raw : List Char
  agent : String

/-- Injected fault point for the callback's `try ... except Exception:
pass` body: at which event-building/emitting statement an exception is
raised, if any. -/
inductive CbFault where
  | atPhaseComplete   -- while building/putting the `phase_complete` event
  | atPhaseStart      -- while building/putting the `phase_start` event
  deriving DecidableEq

/-- Source `_on_task_done` (lines 240-282), with `extract` standing for
`extract_code` from `crewai_sdlc.crew`.  With `fault = none` this is the
normal path; with `some f` an exception is raised at the corresponding
statement, every later statement of the `try` body is skipped, and the
`except Exception: pass` swallows it, so the function still returns a
state. -/
def on_task_done (extract : List Char → List Char) (phases : List PhaseDef)
    (st : TaskCallbackState) (t : TaskOutput) (now : Nat) (fault : Option CbFault) :
    TaskCallbackState :=
  match fault with
  | some .atPhaseComplete => st
  | _ =>
    let idx := st.task_counter
    let st1 : TaskCallbackState :=
      if h : idx < phases.length then
        let p := phases[idx]
        let content := if p.extract then extract t.raw else t.raw
        { st with handler := { st.handler with events := st.handler.events ++
            [Event.phase_complete idx p.phase_id p.phase p.agent
              (content.take 8000) content.length p.file] } }
      else st
    let st2 : TaskCallbackState := { st1 with task_counter := st1.task_counter + 1 }
    let next := st2.task_counter
    let st3 : TaskCallbackState := { st2 with handler := st2.handler.set_phase next now }
    match fault with
    | some .atPhaseStart => st3
    | _ =>
      if h2 : next < phases.length then
        let np := phases[next]
        { st3 with handler := { st3.handler with events := st3.handler.events ++
            [Event.phase_start next np.phase_id np.phase np.agent np.model np.icon np.color] } }
      else st3

/-- The fault-free callback applied once per completed stage, in order
(CrewAI fires `task_callback` once per finished task). -/
def runCallbacks (extract : List Char → List Char) (phases : List PhaseDef)
    (st : TaskCallbackState) : List (TaskOutput × Nat) → TaskCallbackState
  | [] => st
  | (t, now) :: rest => runCallbacks extract phases (on_task_done extract phases st t now none) rest

/-! ### Pipeline worker cleanup (`run_pipeline_streaming`, lines 291-449)

The `try` block (lines 296-438) is abstracted to its observable outcome:
the events it pushed, the interceptor tables it left behind, the
`agent_output` events a `flush_remaining` of the worker's handler would
emit, and the exception it raised, if any.  The `except`/`finally`
clauses (lines 440-449) are embedded statement by statement. -/

/-- Embeds `active_runs.pop(run_id, None)` on the registry key set. -/
def removeRun (registry : List String) (run_id : String) : List String :=
  registry.filter fun r => r ≠ run_id

/-- Whether thread `tid` is registered in an interceptor table, and the
table after `self._handlers.pop(tid, None)`.  (For the worker model only
membership of `tid` matters, so the table is its key set.) -/
def popTid (tids : List Nat) (tid : Nat) : List Nat × Bool :=
  (tids.filter (fun k => k ≠ tid), tids.contains tid)

/-- Outcome of the worker's `try` block (lines 296-438), abstracting the
crew kickoff, artifact persistence and the events they push. -/
structure TryOutcome where
  /-- Events the `try` block pushed onto the run's queue, in order
  (`pipeline_start`, `status`, `phase_start`, `agent_output`,
  `phase_complete`, `pipeline_complete`; never `error` or `done`). -/
  events : List Event
  /-- Keys of the `_stdout_interceptor` registration table when the `try` block ends
  (normally, or at the point the exception was raised). -/
  stdoutT : List Nat
  /-- Keys of the `_stderr_interceptor` table at the same point. -/
  stderrT : List Nat
  /-- Pending `agent_output` events `handler.flush_remaining()` pushes when the
  stdout unregister in `finally` still finds the handler registered. -/
  flush1 : List Event
  /-- Likewise for the stderr unregister in `finally`. -/
  flush2 : List Event
  /-- Holds `some msg` when the `try` body raised (`str(exc)` at line 443). -/
  exc : Option String

/-- Source `run_pipeline_streaming`, reduced to its `except`/`finally` structure
(lines 440-449): on an exception push one `error` event; then, always,
unregister the worker's thread from both interceptors (flushing any
pending handler buffer), push the terminal `done` event, and remove the
run's registry entry.  Returns the final queue contents, both interceptor
key sets, and the registry. -/
def run_pipeline_streaming (tid : Nat) (run_id : String) (o : TryOutcome)
    (registry : List String) : List Event × List Nat × List Nat × List String :=
  let q0 := o.events ++ (match o.exc with | some m => [Event.error m] | none => [])
  let p1 := popTid o.stdoutT tid
  let q1 := q0 ++ (if p1.2 then o.flush1 else [])
  let p2 := popTid o.stderrT tid
  let q2 := q1 ++ (if p2.2 then o.flush2 else [])
  (q2 ++ [Event.done], p1.1, p2.1, removeRun registry run_id)

/-! ### SSE streaming endpoint (`stream`, lines 499-529) -/

/-- The `timeout=120` argument of `eq.get(timeout=120)` at line 514. -/
def STREAM_TIMEOUT_SECONDS : Nat := 120

/-- One interaction of the generator with the run's queue: either
`eq.get(timeout=120)` returned an event, or it raised `queue.Empty`. -/
inductive QueueRead where
  | item (e : Event)
  | timeout
  deriving DecidableEq

/-- Whether a queue read delivered the terminal `done` event. -/
def QueueRead.isDoneRead : QueueRead → Bool
  | .item e => e.isDone
  | .timeout => false

/-- The event one loop iteration yields for one queue read: the received
event itself, or a `heartbeat` on `queue.Empty`. -/
def readEvent : QueueRead → Event
  | .item e => e
  | .timeout => .heartbeat

/-- The `generate()` loop of `stream` (lines 511-519) run against a given
finite sequence of queue interactions: yield each received event, stop
right after yielding an event whose kind is `done`, and yield a
`heartbeat` and continue on a timeout.  (JSON serialization of the
yielded events is abstracted away; the model yields the events.) -/
def generate : List QueueRead → List Event
  | [] => []
  | QueueRead.item e :: rest => e :: (if e.isDone then [] else generate rest)
  | QueueRead.timeout :: rest => Event.heartbeat :: generate rest

/-- Registry lookup `active_runs.get(run_id)` for the stream endpoint:
each active run is paired with the queue behaviour its stream would
observe. -/
def lookupRun : List (String × List QueueRead) → String → Option (List QueueRead)
  | [], _ => none
  | (k, v) :: rest, run_id => if k = run_id then some v else lookupRun rest run_id

/-- Source `stream(run_id)` (lines 499-529): unknown run id yields the single
synthetic error event of line 507 and ends; otherwise the generator loop
runs. -/
def stream (registry : List (String × List QueueRead)) (run_id : String) : List Event :=
  match lookupRun registry run_id with
  | none => [Event.error "Run not found or completed"]
  | some reads => generate reads

/-! ## Helper lemmas -/

/-- The `agent_output` events one `_flush` call pushes from a given
handler state: none on an empty buffer, one otherwise. -/
def flushEvents (s : PipelineHandler) : List Event :=
  if s.chunk_buffer = [] then []
  else [Event.agent_output s.current_phase_index
    (PipelineHandler.lastChars 4000 s.chunk_buffer.flatten)]

theorem flush_events_eq (s : PipelineHandler) (now : Nat) :
    (s.flush now).events = s.events ++ flushEvents s := by
  unfold PipelineHandler.flush flushEvents
  split <;> simp

theorem flush_buffer_eq (s : PipelineHandler) (now : Nat) :
    (s.flush now).chunk_buffer = [] := by
  unfold PipelineHandler.flush
  split <;> simp_all

theorem flush_phase_eq (s : PipelineHandler) (now : Nat) :
    (s.flush now).current_phase_index = s.current_phase_index := by
  unfold PipelineHandler.flush
  split <;> simp

theorem flush_conservation (s : PipelineHandler) (now : Nat) :
    (s.flush now).flushed_log.flatten ++ (s.flush now).chunk_buffer.flatten =
      s.flushed_log.flatten ++ s.chunk_buffer.flatten := by
  unfold PipelineHandler.flush
  split <;> simp

theorem process_nil (s : PipelineHandler) (now : Nat) : s.process [] now = s := by
  simp [PipelineHandler.process]

theorem set_phase_events (s : PipelineHandler) (index now : Nat) :
    (s.set_phase index now).events = s.events ++ flushEvents s := by
  simp [PipelineHandler.set_phase, flush_events_eq]

theorem set_phase_index (s : PipelineHandler) (index now : Nat) :
    (s.set_phase index now).current_phase_index = index := by
  simp [PipelineHandler.set_phase]

/-! ## Claims C3, C4, C5 -/

/-- Unfolding equation for `process` on non-empty text, shared by the
claim theorems below and the conservation lemmas. -/
theorem process_eq (s : PipelineHandler) (text : List Char) (now : Nat)
    (hne : text ≠ []) :
    s.process text now =
      if PipelineHandler.stripNonEmpty (PipelineHandler.clean text) then
        if 250 < now - s.last_push || 4 ≤ s.chunk_buffer.length + 1 then
          PipelineHandler.flush
            { s with chunk_buffer := s.chunk_buffer ++ [PipelineHandler.clean text] } now
        else { s with chunk_buffer := s.chunk_buffer ++ [PipelineHandler.clean text] }
      else s := by
  simp [PipelineHandler.process, hne]

/-- C3: for every Phase Handler state and every string `text`,
`process(text)` strips ANSI escape sequences and the fixed box-drawing
glyph table from `text` (`clean`), appends the cleaned text to the
internal buffer exactly when it is non-empty after trimming, and triggers
a flush when either more than 250 ms has elapsed since the last flush or
the buffer has accumulated at least 4 fragments. -/
theorem claim_C3_process (s : PipelineHandler) (text : List Char) (now : Nat)
    (hne : text ≠ []) :
    s.process text now =
      if PipelineHandler.stripNonEmpty (PipelineHandler.clean text) then
        if 250 < now - s.last_push || 4 ≤ s.chunk_buffer.length + 1 then
          PipelineHandler.flush
            { s with chunk_buffer := s.chunk_buffer ++ [PipelineHandler.clean text] } now
        else { s with chunk_buffer := s.chunk_buffer ++ [PipelineHandler.clean text] }
      else s :=
  process_eq s text now hne

/-- Witness for C3 at a concrete input: write `"hi"` 300 ms after the
last push into a fresh handler. -/
theorem claim_C3_process_witness :
    ("hi".toList ≠ []) ∧
    ((PipelineHandler.init 0).process "hi".toList 300 =
      if PipelineHandler.stripNonEmpty (PipelineHandler.clean "hi".toList) then
        if 250 < 300 - (PipelineHandler.init 0).last_push ||
            4 ≤ (PipelineHandler.init 0).chunk_buffer.length + 1 then
          PipelineHandler.flush
            { PipelineHandler.init 0 with
              chunk_buffer := (PipelineHandler.init 0).chunk_buffer ++
                [PipelineHandler.clean "hi".toList] } 300
        else
          { PipelineHandler.init 0 with
            chunk_buffer := (PipelineHandler.init 0).chunk_buffer ++
              [PipelineHandler.clean "hi".toList] }
      else PipelineHandler.init 0) :=
  ⟨by decide, claim_C3_process (PipelineHandler.init 0) "hi".toList 300 (by decide)⟩

/-- C4: `_flush` on an empty buffer is a no-op; on a non-empty buffer it
pushes exactly one `agent_output` event carrying the current phase index
and the last 4000 characters of the in-order concatenation, clears the
buffer and resets the flush timer; hence flushing twice in a row pushes
at most one event. -/
theorem claim_C4_flush (s : PipelineHandler) (n1 n2 : Nat) :
    (s.chunk_buffer = [] → s.flush n1 = s) ∧
    (s.chunk_buffer ≠ [] →
      (s.flush n1).events = s.events ++
        [Event.agent_output s.current_phase_index
          (PipelineHandler.lastChars 4000 s.chunk_buffer.flatten)] ∧
      (s.flush n1).chunk_buffer = [] ∧
      (s.flush n1).last_push = n1) ∧
    ((s.flush n1).flush n2).events.length ≤ s.events.length + 1 := by
  refine ⟨?_, ?_, ?_⟩
  · intro h
    simp [PipelineHandler.flush, h]
  · intro h
    simp [PipelineHandler.flush, h]
  · have hempty : flushEvents (s.flush n1) = [] := by
      rw [flushEvents, if_pos (flush_buffer_eq s n1)]
    rw [flush_events_eq, flush_events_eq, hempty]
    unfold flushEvents
    split <;> simp

/-- Witness for C4: a handler with two buffered fragments. -/
theorem claim_C4_flush_witness :
    (({ events := [], current_phase_index := 2, chunk_buffer := ["ab".toList, "c".toList],
        last_push := 0, flushed_log := [] } : PipelineHandler).chunk_buffer = [] →
      ({ events := [], current_phase_index := 2, chunk_buffer := ["ab".toList, "c".toList],
         last_push := 0, flushed_log := [] } : PipelineHandler).flush 5 =
        { events := [], current_phase_index := 2, chunk_buffer := ["ab".toList, "c".toList],
          last_push := 0, flushed_log := [] }) ∧
    (({ events := [], current_phase_index := 2, chunk_buffer := ["ab".toList, "c".toList],
        last_push := 0, flushed_log := [] } : PipelineHandler).chunk_buffer ≠ [] →
      (({ events := [], current_phase_index := 2, chunk_buffer := ["ab".toList, "c".toList],
          last_push := 0, flushed_log := [] } : PipelineHandler).flush 5).events =
        ({ events := [], current_phase_index := 2, chunk_buffer := ["ab".toList, "c".toList],
           last_push := 0, flushed_log := [] } : PipelineHandler).events ++
          [Event.agent_output
            ({ events := [], current_phase_index := 2, chunk_buffer := ["ab".toList, "c".toList],
               last_push := 0, flushed_log := [] } : PipelineHandler).current_phase_index
            (PipelineHandler.lastChars 4000
              ({ events := [], current_phase_index := 2, chunk_buffer := ["ab".toList, "c".toList],
                 last_push := 0, flushed_log := [] } : PipelineHandler).chunk_buffer.flatten)] ∧
      (({ events := [], current_phase_index := 2, chunk_buffer := ["ab".toList, "c".toList],
          last_push := 0, flushed_log := [] } : PipelineHandler).flush 5).chunk_buffer = [] ∧
      (({ events := [], current_phase_index := 2, chunk_buffer := ["ab".toList, "c".toList],
          last_push := 0, flushed_log := [] } : PipelineHandler).flush 5).last_push = 5) ∧
    ((({ events := [], current_phase_index := 2, chunk_buffer := ["ab".toList, "c".toList],
         last_push := 0, flushed_log := [] } : PipelineHandler).flush 5).flush 9).events.length ≤
      ({ events := [], current_phase_index := 2, chunk_buffer := ["ab".toList, "c".toList],
         last_push := 0, flushed_log := [] } : PipelineHandler).events.length + 1 :=
  claim_C4_flush
    { events := [], current_phase_index := 2, chunk_buffer := ["ab".toList, "c".toList],
      last_push := 0, flushed_log := [] } 5 9

/-- C5: `set_phase(n)` on a non-empty buffer first flushes — the pushed
`agent_output` event is tagged with the previous phase index, never with
`n` — and only then updates the current phase index to `n`. -/
theorem claim_C5_set_phase (s : PipelineHandler) (n now : Nat)
    (h : s.chunk_buffer ≠ []) :
    (s.set_phase n now).events = s.events ++
      [Event.agent_output s.current_phase_index
        (PipelineHandler.lastChars 4000 s.chunk_buffer.flatten)] ∧
    (s.set_phase n now).current_phase_index = n := by
  constructor
  · rw [set_phase_events, flushEvents, if_neg h]
  · exact set_phase_index s n now

/-- Witness for C5: advance a handler holding one pending fragment from
phase 2 to phase 3. -/
theorem claim_C5_set_phase_witness :
    (({ events := [], current_phase_index := 2, chunk_buffer := ["x".toList],
        last_push := 0, flushed_log := [] } : PipelineHandler).chunk_buffer ≠ []) ∧
    ((({ events := [], current_phase_index := 2, chunk_buffer := ["x".toList],
         last_push := 0, flushed_log := [] } : PipelineHandler).set_phase 3 7).events =
      ({ events := [], current_phase_index := 2, chunk_buffer := ["x".toList],
         last_push := 0, flushed_log := [] } : PipelineHandler).events ++
        [Event.agent_output
          ({ events := [], current_phase_index := 2, chunk_buffer := ["x".toList],
             last_push := 0, flushed_log := [] } : PipelineHandler).current_phase_index
          (PipelineHandler.lastChars 4000
            ({ events := [], current_phase_index := 2, chunk_buffer := ["x".toList],
               last_push := 0, flushed_log := [] } : PipelineHandler).chunk_buffer.flatten)] ∧
      (({ events := [], current_phase_index := 2, chunk_buffer := ["x".toList],
          last_push := 0, flushed_log := [] } : PipelineHandler).set_phase 3 7).current_phase_index = 3) :=
  ⟨by decide,
   claim_C5_set_phase
     { events := [], current_phase_index := 2, chunk_buffer := ["x".toList],
       last_push := 0, flushed_log := [] } 3 7 (by decide)⟩

/-! ## Claim C6: conservation of cleaned text across flushes -/

/-- A sequence of `process` calls, each with its clock instant. -/
def processAll (s : PipelineHandler) : List (List Char × Nat) → PipelineHandler
  | [] => s
  | (t, now) :: rest => processAll (s.process t now) rest

/-- The characters a sequence of `process(text)` calls actually keeps: the
in-order concatenation of the cleaned texts that are non-empty after
trimming (the ones line 125 appends to the buffer). -/
def keptChars (inputs : List (List Char × Nat)) : List Char :=
  ((inputs.map fun p => PipelineHandler.clean p.1).filter PipelineHandler.stripNonEmpty).flatten

theorem process_conservation (s : PipelineHandler) (text : List Char) (now : Nat) :
    (s.process text now).flushed_log.flatten ++ (s.process text now).chunk_buffer.flatten =
      s.flushed_log.flatten ++ s.chunk_buffer.flatten ++
        (if PipelineHandler.stripNonEmpty (PipelineHandler.clean text)
         then PipelineHandler.clean text else []) := by
  by_cases htext : text = []
  · subst htext
    rw [process_nil]
    have : PipelineHandler.stripNonEmpty (PipelineHandler.clean []) = false := by decide
    simp [this]
  · rw [process_eq s text now htext]
    by_cases hclean : PipelineHandler.stripNonEmpty (PipelineHandler.clean text)
    · simp only [hclean, if_pos]
      split
      · rw [flush_conservation]
        simp
      · simp
    · simp [hclean]

theorem processAll_conservation (inputs : List (List Char × Nat)) (s : PipelineHandler) :
    (processAll s inputs).flushed_log.flatten ++ (processAll s inputs).chunk_buffer.flatten =
      s.flushed_log.flatten ++ s.chunk_buffer.flatten ++ keptChars inputs := by
  induction inputs generalizing s with
  | nil => simp [processAll, keptChars]
  | cons p rest ih =>
    obtain ⟨t, now⟩ := p
    show (processAll (s.process t now) rest).flushed_log.flatten ++
        (processAll (s.process t now) rest).chunk_buffer.flatten = _
    rw [ih, process_conservation]
    simp only [keptChars, List.map_cons, List.filter_cons]
    split <;> simp

/-- C6 fails as stated: a single `process("a")` call that reaches neither
flush threshold keeps the character in the buffer, so the total enqueued
across flushed `agent_output` events (none) differs from the total
non-empty-after-cleaning characters written. -/
theorem claim_C6_counterexample :
    ¬ ((processAll (PipelineHandler.init 0) [("a".toList, 0)]).flushed_log.flatten =
        keptChars [("a".toList, 0)]) := by
  decide

/-- C6 (amended): for all sequences of `process(text)` calls, the total
characters enqueued across flushed `agent_output` events before
truncation, followed by the characters still pending in the buffer,
equals the total non-empty-after-cleaning characters written, in order —
and after the terminating `flush_remaining` the enqueued characters alone
equal the characters written. -/
theorem claim_C6_conservation (inputs : List (List Char × Nat)) (t0 now : Nat) :
    (processAll (PipelineHandler.init t0) inputs).flushed_log.flatten ++
      (processAll (PipelineHandler.init t0) inputs).chunk_buffer.flatten = keptChars inputs ∧
    ((processAll (PipelineHandler.init t0) inputs).flush_remaining now).flushed_log.flatten =
      keptChars inputs := by
  have h1 := processAll_conservation inputs (PipelineHandler.init t0)
  simp only [PipelineHandler.init, List.flatten_nil, List.nil_append] at h1
  refine ⟨h1, ?_⟩
  rw [PipelineHandler.flush_remaining, ← h1]
  have h2 := flush_conservation (processAll (PipelineHandler.init t0) inputs) now
  rw [flush_buffer_eq] at h2
  simpa using h2

/-! ## Claim C2: `OutputInterceptor.write` -/

theorem lookupH_insertH (l : List (Nat × PipelineHandler)) (tid : Nat)
    (h : PipelineHandler) (t2 : Nat) :
    lookupH (insertH l tid h) t2 = if t2 = tid then some h else lookupH l t2 := by
  induction l with
  | nil =>
    simp only [insertH, lookupH]
    by_cases ht : t2 = tid
    · simp [ht]
    · rw [if_neg fun hh => ht hh.symm, if_neg ht]
  | cons kv rest ih =>
    obtain ⟨k, v⟩ := kv
    by_cases hk : k = tid
    · subst hk
      by_cases ht : t2 = k
      · subst ht
        simp [insertH, lookupH]
      · simp [insertH, lookupH, ht, Ne.symm ht]
    · by_cases ht : t2 = tid
      · subst ht
        simp [insertH, lookupH, hk, ih, Ne.symm hk]
      · simp [insertH, lookupH, hk, ih, ht]

/-- Characterization of `OutputInterceptor.write`: console forwarding
happens first (skipped entirely when the original stream raises), the
calling thread's handler (if any) processes the text, and the length of
`text` is returned.  The result never depends on `flushFails`. -/
theorem write_eq (r : OutputInterceptor) (wF fF : Bool) (tid : Nat)
    (text : List Char) (now : Nat) :
    r.write wF fF tid text now =
      ({ handlers :=
           if text = [] then r.handlers
           else
             match lookupH r.handlers tid with
             | some h => insertH r.handlers tid (h.process text now)
             | none => r.handlers,
         console := if wF then r.console else r.console ++ text },
       text.length) := by
  unfold OutputInterceptor.write
  have hh : ((if wF then r else { r with console := r.console ++ text }) :
      OutputInterceptor).handlers = r.handlers := by
    split <;> rfl
  by_cases htext : text = []
  · subst htext
    cases wF <;> simp
  · simp only [htext, if_neg, ite_false]
    rw [hh]
    rcases hl : lookupH r.handlers tid with _ | hdl
    · cases wF <;> simp [hl]
    · cases wF <;> simp [hl, hh]

/-- C2: `write(text)` always forwards to the real console stream first
(with forwarding failure of its `write` or `flush` swallowed — the
result exists and never depends on `flushFails`), routes `text` to the
calling thread's registered handler and to no other thread's handler, is
a pure table-lookup miss for a thread with no handler, and returns the
length of `text`. -/
theorem claim_C2_write (r : OutputInterceptor) (wF fF : Bool) (tid : Nat)
    (text : List Char) (now : Nat) :
    ((r.write wF fF tid text now).2 = text.length) ∧
    ((r.write wF fF tid text now).1.console =
      if wF then r.console else r.console ++ text) ∧
    ((r.write wF fF tid text now).1 = (r.write wF true tid text now).1) ∧
    (∀ t2, lookupH (r.write wF fF tid text now).1.handlers t2 =
      if t2 = tid then (lookupH r.handlers tid).map fun h => h.process text now
      else lookupH r.handlers t2) ∧
    (lookupH r.handlers tid = none →
      (r.write wF fF tid text now).1.handlers = r.handlers) := by
  rw [write_eq, write_eq]
  refine ⟨rfl, rfl, rfl, ?_, ?_⟩
  · intro t2
    by_cases htext : text = []
    · subst htext
      simp only [ite_true]
      by_cases ht : t2 = tid
      · subst ht
        rcases hl : lookupH r.handlers t2 with _ | hdl <;> simp [hl, process_nil]
      · simp [ht]
    · simp only [htext, ite_false]
      rcases hl : lookupH r.handlers tid with _ | hdl
      · by_cases ht : t2 = tid
        · subst ht
          simp [hl]
        · simp [ht]
      · simp [lookupH_insertH, hl]
  · intro hnone
    by_cases htext : text = []
    · simp [htext]
    · simp [htext, hnone]

/-- Witness for C2: a write from thread 5 with no registered handler and
a failing original stream. -/
theorem claim_C2_write_witness :
    ((({ handlers := [], console := [] } : OutputInterceptor).write true false 5
        "hello".toList 0).2 = "hello".toList.length) ∧
    ((({ handlers := [], console := [] } : OutputInterceptor).write true false 5
        "hello".toList 0).1.console =
      if true then ({ handlers := [], console := [] } : OutputInterceptor).console
      else ({ handlers := [], console := [] } : OutputInterceptor).console ++ "hello".toList) ∧
    ((({ handlers := [], console := [] } : OutputInterceptor).write true false 5
        "hello".toList 0).1 =
      (({ handlers := [], console := [] } : OutputInterceptor).write true true 5
        "hello".toList 0).1) ∧
    (∀ t2, lookupH (({ handlers := [], console := [] } : OutputInterceptor).write true false 5
        "hello".toList 0).1.handlers t2 =
      if t2 = 5 then
        (lookupH ({ handlers := [], console := [] } : OutputInterceptor).handlers 5).map
          fun h => h.process "hello".toList 0
      else lookupH ({ handlers := [], console := [] } : OutputInterceptor).handlers t2) ∧
    (lookupH ({ handlers := [], console := [] } : OutputInterceptor).handlers 5 = none →
      (({ handlers := [], console := [] } : OutputInterceptor).write true false 5
        "hello".toList 0).1.handlers =
        ({ handlers := [], console := [] } : OutputInterceptor).handlers) :=
  claim_C2_write { handlers := [], console := [] } true false 5 "hello".toList 0

/-! ## Claim C9: lock scope of the Output Router (corrected) -/

/-- C9 fails as stated: in `unregister` (lines 98-102) the
`handler.flush_remaining()` downstream call sits inside the
`with self._lock:` block, so one downstream call runs with the mutex
held. -/
theorem claim_C9_counterexample : downstreamHeld (unregisterTrace true) = 1 := by
  decide

/-- C9 (amended): in `write` the mutex is held only for the table lookup
and released before the handler's `process` call, and `register` holds it
only for the table mutation; but `unregister` runs the handler's
final-flush downstream call with the mutex held whenever a handler was
registered. -/
theorem claim_C9_lock_scope :
    downstreamHeld (writeTrace true) = 0 ∧
    downstreamHeld (writeTrace false) = 0 ∧
    downstreamHeld registerTrace = 0 ∧
    downstreamHeld (unregisterTrace false) = 0 ∧
    downstreamHeld (unregisterTrace true) = 1 := by
  decide

/-! ## Claims C7 and C10: the task callback -/

/-- The `phase_start` push of lines 269-280, as a function of the new
counter value: one event when the counter still indexes a valid phase,
nothing otherwise. -/
def startEvent (phases : List PhaseDef) (i : Nat) : List Event :=
  match phases[i]? with
  | some np => [Event.phase_start i np.phase_id np.phase np.agent np.model np.icon np.color]
  | none => []

theorem on_task_done_counter (extract : List Char → List Char) (phases : List PhaseDef)
    (st : TaskCallbackState) (t : TaskOutput) (now : Nat) :
    (on_task_done extract phases st t now none).task_counter = st.task_counter + 1 := by
  unfold on_task_done
  by_cases h : st.task_counter < phases.length <;>
    by_cases h2 : st.task_counter + 1 < phases.length <;>
      simp [h, h2]

theorem on_task_done_phase_index (extract : List Char → List Char) (phases : List PhaseDef)
    (st : TaskCallbackState) (t : TaskOutput) (now : Nat) :
    (on_task_done extract phases st t now none).handler.current_phase_index =
      st.task_counter + 1 := by
  unfold on_task_done
  by_cases h : st.task_counter < phases.length <;>
    by_cases h2 : st.task_counter + 1 < phases.length <;>
      simp [h, h2, set_phase_index]

/-- C7: on stage completion with a valid stage index, the callback pushes
`phase_complete` with the content truncated to 8000 characters and the
untruncated content length, then increments the counter, calls
`set_phase` with the new counter (flushing pending output), and pushes
`phase_start` exactly when the new counter indexes a valid phase; an
exception while building or emitting an event is swallowed, leaving a
prefix of the normal-path queue and never propagating. -/
theorem claim_C7_callback (extract : List Char → List Char) (phases : List PhaseDef)
    (st : TaskCallbackState) (t : TaskOutput) (now : Nat)
    (h : st.task_counter < phases.length) :
    ((on_task_done extract phases st t now none).handler.events =
      st.handler.events ++
        [Event.phase_complete st.task_counter phases[st.task_counter].phase_id
          phases[st.task_counter].phase phases[st.task_counter].agent
          ((if phases[st.task_counter].extract then extract t.raw else t.raw).take 8000)
          (if phases[st.task_counter].extract then extract t.raw else t.raw).length
          phases[st.task_counter].file] ++
        flushEvents st.handler ++ startEvent phases (st.task_counter + 1)) ∧
    (((if phases[st.task_counter].extract then extract t.raw else t.raw).take 8000).length
      ≤ 8000) ∧
    ((on_task_done extract phases st t now none).task_counter = st.task_counter + 1) ∧
    ((on_task_done extract phases st t now none).handler.current_phase_index =
      st.task_counter + 1) ∧
    (startEvent phases (st.task_counter + 1) = [] ↔ ¬(st.task_counter + 1 < phases.length)) ∧
    (∀ f : CbFault, ∃ rest,
      (on_task_done extract phases st t now none).handler.events =
        (on_task_done extract phases st t now (some f)).handler.events ++ rest) := by
  have hstart : ∀ i, ∀ hi : i < phases.length,
      startEvent phases i =
        [Event.phase_start i phases[i].phase_id phases[i].phase phases[i].agent
          phases[i].model phases[i].icon phases[i].color] := by
    intro i hi
    simp [startEvent, List.getElem?_eq_getElem hi]
  have hstartNone : ∀ i, ¬i < phases.length → startEvent phases i = [] := by
    intro i hi
    have : phases[i]? = none := List.getElem?_eq_none (by omega)
    simp [startEvent, this]
  have hmain : (on_task_done extract phases st t now none).handler.events =
      st.handler.events ++
        [Event.phase_complete st.task_counter phases[st.task_counter].phase_id
          phases[st.task_counter].phase phases[st.task_counter].agent
          ((if phases[st.task_counter].extract then extract t.raw else t.raw).take 8000)
          (if phases[st.task_counter].extract then extract t.raw else t.raw).length
          phases[st.task_counter].file] ++
        flushEvents st.handler ++ startEvent phases (st.task_counter + 1) := by
    unfold on_task_done
    by_cases h2 : st.task_counter + 1 < phases.length
    · simp [h, h2, set_phase_events, flushEvents, hstart _ h2]
    · simp [h, h2, set_phase_events, flushEvents, hstartNone _ h2]
  refine ⟨hmain, ?_, on_task_done_counter extract phases st t now,
      on_task_done_phase_index extract phases st t now, ?_, ?_⟩
  · exact List.length_take_le 8000 _
  · constructor
    · intro he
      intro h2
      rw [hstart _ h2] at he
      cases he
    · intro h2
      exact hstartNone _ h2
  · intro f
    cases f
    · refine ⟨[Event.phase_complete st.task_counter phases[st.task_counter].phase_id
          phases[st.task_counter].phase phases[st.task_counter].agent
          ((if phases[st.task_counter].extract then extract t.raw else t.raw).take 8000)
          (if phases[st.task_counter].extract then extract t.raw else t.raw).length
          phases[st.task_counter].file] ++
        flushEvents st.handler ++ startEvent phases (st.task_counter + 1), ?_⟩
      rw [hmain]
      show _ = (st.handler.events : List Event) ++ _
      simp
    · refine ⟨startEvent phases (st.task_counter + 1), ?_⟩
      rw [hmain]
      unfold on_task_done
      simp [h, set_phase_events, flushEvents]

/-- A one-phase `phases` list, with the fields the first `PHASE_DEFS`
entry would get, for concrete witnesses. -/
def samplePhases : List PhaseDef :=
  [{ phase_id := "id0", phase := "requirement_analysis", agent := "Requirement Analyst",
     model := "m0", icon := "i0", color := "c0", file := "01_specification.md",
     extract := false }]

/-- The callback closure state at the start of a run. -/
def initialCbState (t0 : Nat) : TaskCallbackState :=
  { task_counter := 0, handler := PipelineHandler.init t0 }

/-- A concrete completed-task argument for witnesses. -/
def sampleTaskOutput : TaskOutput :=
  { raw := "result text".toList, agent := "Requirement Analyst" }

/-- Witness for C7: the callback fires for the only stage of a one-phase
run. -/
theorem claim_C7_callback_witness :
    ((initialCbState 0).task_counter < samplePhases.length) ∧
    (((on_task_done id samplePhases (initialCbState 0) sampleTaskOutput 5 none).handler.events =
      (initialCbState 0).handler.events ++
        [Event.phase_complete (initialCbState 0).task_counter
          (samplePhases.get ⟨0, by decide⟩).phase_id
          (samplePhases.get ⟨0, by decide⟩).phase
          (samplePhases.get ⟨0, by decide⟩).agent
          ((if (samplePhases.get ⟨0, by decide⟩).extract then id sampleTaskOutput.raw
            else sampleTaskOutput.raw).take 8000)
          (if (samplePhases.get ⟨0, by decide⟩).extract then id sampleTaskOutput.raw
            else sampleTaskOutput.raw).length
          (samplePhases.get ⟨0, by decide⟩).file] ++
        flushEvents (initialCbState 0).handler ++
        startEvent samplePhases ((initialCbState 0).task_counter + 1)) ∧
    (((if (samplePhases.get ⟨0, by decide⟩).extract then id sampleTaskOutput.raw
        else sampleTaskOutput.raw).take 8000).length ≤ 8000) ∧
    ((on_task_done id samplePhases (initialCbState 0) sampleTaskOutput 5 none).task_counter =
      (initialCbState 0).task_counter + 1) ∧
    ((on_task_done id samplePhases (initialCbState 0) sampleTaskOutput 5
        none).handler.current_phase_index = (initialCbState 0).task_counter + 1) ∧
    (startEvent samplePhases ((initialCbState 0).task_counter + 1) = [] ↔
      ¬((initialCbState 0).task_counter + 1 < samplePhases.length)) ∧
    (∀ f : CbFault, ∃ rest,
      (on_task_done id samplePhases (initialCbState 0) sampleTaskOutput 5 none).handler.events =
        (on_task_done id samplePhases (initialCbState 0) sampleTaskOutput 5
          (some f)).handler.events ++ rest)) :=
  ⟨by decide,
   claim_C7_callback id samplePhases (initialCbState 0) sampleTaskOutput 5 (by decide)⟩

theorem runCallbacks_state (extract : List Char → List Char) (phases : List PhaseDef) :
    ∀ (outs : List (TaskOutput × Nat)) (st : TaskCallbackState),
      (runCallbacks extract phases st outs).task_counter = st.task_counter + outs.length ∧
      (outs ≠ [] →
        (runCallbacks extract phases st outs).handler.current_phase_index =
          st.task_counter + outs.length) := by
  intro outs
  induction outs with
  | nil => intro st; simp [runCallbacks]
  | cons p rest ih =>
    obtain ⟨t, now⟩ := p
    intro st
    have hstep := on_task_done_counter extract phases st t now
    have hrec := ih (on_task_done extract phases st t now none)
    constructor
    · show (runCallbacks extract phases (on_task_done extract phases st t now none)
          rest).task_counter = _
      rw [hrec.1, hstep]
      simp
      omega
    · intro _
      cases rest with
      | nil =>
        show (on_task_done extract phases st t now none).handler.current_phase_index = _
        rw [on_task_done_phase_index]
        simp
      | cons q qs =>
        show (runCallbacks extract phases (on_task_done extract phases st t now none)
            (q :: qs)).handler.current_phase_index = _
        rw [hrec.2 (by simp), hstep]
        simp
        omega

/-- C10: after the callback has fired once per phase of an N-phase run,
the handler's phase index is N — one past the last valid index — because
the counter is incremented and `set_phase` called unconditionally; so a
flush of any pending buffer after the final stage emits an
`agent_output` event tagged with the out-of-range index N. -/
theorem claim_C10_final_phase_index (extract : List Char → List Char)
    (phases : List PhaseDef) (outs : List (TaskOutput × Nat)) (t0 : Nat)
    (hlen : outs.length = phases.length) :
    ((runCallbacks extract phases (initialCbState t0) outs).handler.current_phase_index =
      phases.length) ∧
    (∀ i, i < phases.length →
      (runCallbacks extract phases (initialCbState t0) outs).handler.current_phase_index ≠ i) ∧
    ((runCallbacks extract phases (initialCbState t0) outs).handler.chunk_buffer ≠ [] →
      flushEvents (runCallbacks extract phases (initialCbState t0) outs).handler =
        [Event.agent_output phases.length
          (PipelineHandler.lastChars 4000
            (runCallbacks extract phases
              (initialCbState t0) outs).handler.chunk_buffer.flatten)]) := by
  have hidx : (runCallbacks extract phases
      (initialCbState t0) outs).handler.current_phase_index = phases.length := by
    cases outs with
    | nil =>
      simp only [runCallbacks, initialCbState, PipelineHandler.init]
      simp at hlen
      omega
    | cons p rest =>
      have h2 := (runCallbacks_state extract phases (p :: rest) (initialCbState t0)).2 (by simp)
      rw [h2, ← hlen]
      simp [initialCbState]
  refine ⟨hidx, ?_, ?_⟩
  · intro i hi
    omega
  · intro hb
    unfold flushEvents
    rw [if_neg hb, hidx]

/-- Witness for C10: a one-phase run whose single callback leaves the
phase index at 1 = `phases.length`. -/
theorem claim_C10_final_phase_index_witness :
    ([(sampleTaskOutput, 5)].length = samplePhases.length) ∧
    (((runCallbacks id samplePhases (initialCbState 0)
        [(sampleTaskOutput, 5)]).handler.current_phase_index = samplePhases.length) ∧
    (∀ i, i < samplePhases.length →
      (runCallbacks id samplePhases (initialCbState 0)
        [(sampleTaskOutput, 5)]).handler.current_phase_index ≠ i) ∧
    ((runCallbacks id samplePhases (initialCbState 0)
        [(sampleTaskOutput, 5)]).handler.chunk_buffer ≠ [] →
      flushEvents (runCallbacks id samplePhases (initialCbState 0)
          [(sampleTaskOutput, 5)]).handler =
        [Event.agent_output samplePhases.length
          (PipelineHandler.lastChars 4000
            (runCallbacks id samplePhases (initialCbState 0)
              [(sampleTaskOutput, 5)]).handler.chunk_buffer.flatten)])) :=
  ⟨by decide,
   claim_C10_final_phase_index id samplePhases [(sampleTaskOutput, 5)] 0 (by decide)⟩

/-! ## Claim C1: guaranteed worker cleanup -/

theorem agent_output_not_terminal {e : Event} (h : e.isAgentOutput = true) :
    e.isError = false ∧ e.isDone = false := by
  cases e <;> simp_all [Event.isAgentOutput, Event.isError, Event.isDone]

theorem isDone_done : Event.isDone Event.done = true := rfl

theorem isDone_error (m : String) : Event.isDone (Event.error m) = false := rfl

theorem isError_error (m : String) : Event.isError (Event.error m) = true := rfl

theorem isError_done : Event.isError Event.done = false := rfl

/-- C1: whatever the `try` block did — return normally or raise — the
worker's `finally` unregisters its thread from both interceptors, pushes
`done` as the last event (and the only `done`), and removes the run from
the registry; in the exception case the queue carries exactly one `error`
event, and none otherwise. -/
theorem claim_C1_worker_cleanup (tid : Nat) (run_id : String) (o : TryOutcome)
    (registry : List String)
    (hbody : ∀ e ∈ o.events, e.isError = false ∧ e.isDone = false)
    (hflush : ∀ e ∈ o.flush1 ++ o.flush2, e.isAgentOutput = true) :
    ((run_pipeline_streaming tid run_id o registry).1.getLast? = some Event.done) ∧
    ((run_pipeline_streaming tid run_id o registry).1.countP (fun e => e.isDone) = 1) ∧
    (tid ∈ (run_pipeline_streaming tid run_id o registry).2.1 → False) ∧
    (tid ∈ (run_pipeline_streaming tid run_id o registry).2.2.1 → False) ∧
    (run_id ∈ (run_pipeline_streaming tid run_id o registry).2.2.2 → False) ∧
    (o.exc = none →
      (run_pipeline_streaming tid run_id o registry).1.countP (fun e => e.isError) = 0) ∧
    (∀ m, o.exc = some m →
      (run_pipeline_streaming tid run_id o registry).1.countP (fun e => e.isError) = 1) := by
  have hf1 : ∀ e ∈ o.flush1, e.isError = false ∧ e.isDone = false := fun e he =>
    agent_output_not_terminal (hflush e (List.mem_append_left _ he))
  have hf2 : ∀ e ∈ o.flush2, e.isError = false ∧ e.isDone = false := fun e he =>
    agent_output_not_terminal (hflush e (List.mem_append_right _ he))
  have hd0 : o.events.countP (fun e => e.isDone) = 0 :=
    List.countP_eq_zero.mpr fun e he => by simp [(hbody e he).2]
  have hd1 : o.flush1.countP (fun e => e.isDone) = 0 :=
    List.countP_eq_zero.mpr fun e he => by simp [(hf1 e he).2]
  have hd2 : o.flush2.countP (fun e => e.isDone) = 0 :=
    List.countP_eq_zero.mpr fun e he => by simp [(hf2 e he).2]
  have he0 : o.events.countP (fun e => e.isError) = 0 :=
    List.countP_eq_zero.mpr fun e he => by simp [(hbody e he).1]
  have he1 : o.flush1.countP (fun e => e.isError) = 0 :=
    List.countP_eq_zero.mpr fun e he => by simp [(hf1 e he).1]
  have he2 : o.flush2.countP (fun e => e.isError) = 0 :=
    List.countP_eq_zero.mpr fun e he => by simp [(hf2 e he).1]
  refine ⟨?_, ?_, ?_, ?_, ?_, ?_, ?_⟩
  · unfold run_pipeline_streaming
    simp [List.getLast?_concat]
  · unfold run_pipeline_streaming
    rcases hb1 : (popTid o.stdoutT tid).2 <;> rcases hb2 : (popTid o.stderrT tid).2 <;>
      rcases hexc : o.exc with _ | m <;>
        simp [hb1, hb2, List.countP_append, List.countP_cons, hd0, hd1, hd2,
          isDone_done, isDone_error, -List.countP_eq_zero]
  · intro hmem
    unfold run_pipeline_streaming at hmem
    simp [popTid, List.mem_filter] at hmem
  · intro hmem
    unfold run_pipeline_streaming at hmem
    simp [popTid, List.mem_filter] at hmem
  · intro hmem
    unfold run_pipeline_streaming at hmem
    simp [removeRun, List.mem_filter] at hmem
  · intro hexc
    unfold run_pipeline_streaming
    rcases hb1 : (popTid o.stdoutT tid).2 <;> rcases hb2 : (popTid o.stderrT tid).2 <;>
      simp [hexc, hb1, hb2, List.countP_append, List.countP_cons, he0, he1, he2,
        isError_error, isError_done, -List.countP_eq_zero]
  · intro m hexc
    unfold run_pipeline_streaming
    rcases hb1 : (popTid o.stdoutT tid).2 <;> rcases hb2 : (popTid o.stderrT tid).2 <;>
      simp [hexc, hb1, hb2, List.countP_append, List.countP_cons, he0, he1, he2,
        isError_error, isError_done, -List.countP_eq_zero]

/-- A concrete `try`-block outcome for the C1 witness: the body raised
after emitting `pipeline_start`, with one pending buffer flush. -/
def sampleOutcome : TryOutcome :=
  { events := [Event.pipeline_start], stdoutT := [7], stderrT := [7],
    flush1 := [Event.agent_output 2 "tail".toList], flush2 := [],
    exc := some "boom" }

/-- Witness for C1 at `sampleOutcome` and a two-run registry. -/
theorem claim_C1_worker_cleanup_witness :
    (∀ e ∈ sampleOutcome.events, e.isError = false ∧ e.isDone = false) ∧
    (∀ e ∈ sampleOutcome.flush1 ++ sampleOutcome.flush2, e.isAgentOutput = true) ∧
    (((run_pipeline_streaming 7 "run1" sampleOutcome
        ["run1", "run2"]).1.getLast? = some Event.done) ∧
    ((run_pipeline_streaming 7 "run1" sampleOutcome
        ["run1", "run2"]).1.countP (fun e => e.isDone) = 1) ∧
    (7 ∈ (run_pipeline_streaming 7 "run1" sampleOutcome ["run1", "run2"]).2.1 → False) ∧
    (7 ∈ (run_pipeline_streaming 7 "run1" sampleOutcome ["run1", "run2"]).2.2.1 → False) ∧
    ("run1" ∈ (run_pipeline_streaming 7 "run1" sampleOutcome
        ["run1", "run2"]).2.2.2 → False) ∧
    (sampleOutcome.exc = none →
      (run_pipeline_streaming 7 "run1" sampleOutcome
        ["run1", "run2"]).1.countP (fun e => e.isError) = 0) ∧
    (∀ m, sampleOutcome.exc = some m →
      (run_pipeline_streaming 7 "run1" sampleOutcome
        ["run1", "run2"]).1.countP (fun e => e.isError) = 1)) :=
  ⟨by decide, by decide,
   claim_C1_worker_cleanup 7 "run1" sampleOutcome ["run1", "run2"]
     (by decide) (by decide)⟩

/-! ## Claim C8: the SSE streaming endpoint -/

theorem generate_no_done : ∀ reads : List QueueRead,
    (∀ r ∈ reads, r.isDoneRead = false) → generate reads = reads.map readEvent := by
  intro reads
  induction reads with
  | nil => intro _; simp [generate]
  | cons r rest ih =>
    intro h
    cases r with
    | item e =>
      have he := h _ (List.mem_cons_self _ _)
      simp only [QueueRead.isDoneRead] at he
      simp [generate, readEvent, he]
      exact ih fun x hx => h x (List.mem_cons_of_mem _ hx)
    | timeout =>
      simp [generate, readEvent]
      exact ih fun x hx => h x (List.mem_cons_of_mem _ hx)

theorem generate_until_done (de : Event) (hde : de.isDone = true) :
    ∀ pre post : List QueueRead, (∀ r ∈ pre, r.isDoneRead = false) →
      generate (pre ++ QueueRead.item de :: post) = pre.map readEvent ++ [de] := by
  intro pre
  induction pre with
  | nil => intro post _; simp [generate, hde]
  | cons r rest ih =>
    intro post h
    cases r with
    | item e =>
      have he := h _ (List.mem_cons_self _ _)
      simp only [QueueRead.isDoneRead] at he
      simp [generate, readEvent, he]
      exact ih post fun x hx => h x (List.mem_cons_of_mem _ hx)
    | timeout =>
      simp [generate, readEvent]
      exact ih post fun x hx => h x (List.mem_cons_of_mem _ hx)

/-- C8: the stream endpoint blocks on the queue with a 120-second
timeout; for an unknown run id it yields one synthetic `error` event and
ends; otherwise it yields each received event in FIFO order, turns each
timeout into a `heartbeat` and keeps going, and stops exactly when a
`done` event is received. -/
theorem claim_C8_stream (registry : List (String × List QueueRead)) (run_id : String) :
    (STREAM_TIMEOUT_SECONDS = 120) ∧
    (readEvent QueueRead.timeout = Event.heartbeat) ∧
    (lookupRun registry run_id = none →
      stream registry run_id = [Event.error "Run not found or completed"]) ∧
    (∀ reads, lookupRun registry run_id = some reads →
      ((∀ r ∈ reads, r.isDoneRead = false) →
        stream registry run_id = reads.map readEvent) ∧
      (∀ (pre : List QueueRead) (de : Event) (post : List QueueRead),
        de.isDone = true → (∀ r ∈ pre, r.isDoneRead = false) →
        reads = pre ++ QueueRead.item de :: post →
        stream registry run_id = pre.map readEvent ++ [de])) := by
  refine ⟨rfl, rfl, ?_, ?_⟩
  · intro hnone
    unfold stream
    rw [hnone]
  · intro reads hsome
    constructor
    · intro hnodone
      unfold stream
      rw [hsome]
      exact generate_no_done reads hnodone
    · intro pre de post hde hpre hsplit
      unfold stream
      rw [hsome, hsplit]
      exact generate_until_done de hde pre post hpre

/-- Witness for C8: a registry with one run whose queue delivers a
status event, then times out once, then delivers `done` followed by an
unread event. -/
theorem claim_C8_stream_witness :
    (STREAM_TIMEOUT_SECONDS = 120) ∧
    (readEvent QueueRead.timeout = Event.heartbeat) ∧
    (lookupRun [("r1", [QueueRead.item (Event.status "s"), QueueRead.timeout,
        QueueRead.item Event.done, QueueRead.item Event.heartbeat])] "r1" = none →
      stream [("r1", [QueueRead.item (Event.status "s"), QueueRead.timeout,
        QueueRead.item Event.done, QueueRead.item Event.heartbeat])] "r1" =
        [Event.error "Run not found or completed"]) ∧
    (∀ reads, lookupRun [("r1", [QueueRead.item (Event.status "s"), QueueRead.timeout,
        QueueRead.item Event.done, QueueRead.item Event.heartbeat])] "r1" = some reads →
      ((∀ r ∈ reads, r.isDoneRead = false) →
        stream [("r1", [QueueRead.item (Event.status "s"), QueueRead.timeout,
          QueueRead.item Event.done, QueueRead.item Event.heartbeat])] "r1" =
          reads.map readEvent) ∧
      (∀ (pre : List QueueRead) (de : Event) (post : List QueueRead),
        de.isDone = true → (∀ r ∈ pre, r.isDoneRead = false) →
        reads = pre ++ QueueRead.item de :: post →
        stream [("r1", [QueueRead.item (Event.status "s"), QueueRead.timeout,
          QueueRead.item Event.done, QueueRead.item Event.heartbeat])] "r1" =
          pre.map readEvent ++ [de])) :=
  claim_C8_stream
    [("r1", [QueueRead.item (Event.status "s"), QueueRead.timeout,
      QueueRead.item Event.done, QueueRead.item Event.heartbeat])] "r1"

end SDLC
